import Mathlib

/-!
Verification of the model-training summary table generator
(generate_training_table.py) against its design specification.

The script aggregates per-k-mer deviations between trained models and
reference (ONT) models into table rows, and renders them grouped by
model family, filtered by treatment and alphabet, sorted by date.

Level means are embedded as rationals; Python dictionaries are embedded
as association lists in insertion order; the fatal assertions and
lookup failures of the script are embedded as an error monad (Except).
-/

namespace MethTable

/-- Errors with which the script can abort: a missing reference model
(KeyError on the ont_models dict), the k-mer count consistency assert
at line 117, a missing k-mer in the reference model (KeyError at line
127), and the length-6 assert inside yearmonthday. -/
inductive AggError where
  | notFound
  | consistency
  | keyError
  | assertion
  deriving DecidableEq, Repr

/-- Association-list lookup, first match wins: embeds Python dict
indexing (dicts here are built without duplicate keys). -/
def lookupAssoc {α : Type} : List (String × α) → String → Option α
  | [], _ => none
  | p :: ps, k => if p.1 = k then some p.2 else lookupAssoc ps k

/-- One reference (ONT) k-mer model: mapping from k-mer to its Gaussian
level_mean (the only parameter the script reads, at line 127-128). -/
structure OntModel where
  kmers : List (String × ℚ)
  deriving DecidableEq, Repr

/-- Embeds ont_models[name].get_num_kmers(). -/
def OntModel.get_num_kmers (m : OntModel) : Nat := m.kmers.length

/-- Embeds ont_models[name].kmers[kmer] (returning none for the KeyError
case). -/
def OntModel.lookupKmer (m : OntModel) (k : String) : Option ℚ :=
  lookupAssoc m.kmers k

/-- The process-wide ont_models index, keyed by full model name. -/
def RefStore := List (String × OntModel)

/-- Embeds ont_models[name] (none = KeyError / NotFoundError). -/
def lookupStore (store : RefStore) (name : String) : Option OntModel :=
  lookupAssoc store name

/-- Per-k-mer trained statistics of a training summary: the fields the
aggregation loop reads (lines 128-130). was_trained is the 0/1 flag the
script sums; num_training_events is the event count it sums. -/
structure TrainedKmerStat where
  trained_level_mean : ℚ
  num_training_events : Int
  was_trained : Int
  deriving DecidableEq, Repr

/-- Modelled from the spec: the parsed TrainingSummary object produced
by the external TrainingSummaryReader (methylation_parsers is not part
of the sources under review).  It carries run metadata, the per-model
k-mer statistics in iteration order, and the naming-convention method
get_ont_model_name resolving a short model name to the full reference
model identity. summary.get_num_kmers(m) is the size of the per-model
k-mer mapping. -/
structure TrainingSummary where
  sample : String
  treatment : String
  pore : String
  lab : String
  date : String
  short_alphabet : String
  models : List (String × List (String × TrainedKmerStat))
  get_ont_model_name : String → String

/-- Embeds summary.get_num_kmers(model_short_name). -/
def TrainingSummary.get_num_kmers (s : TrainingSummary) (m : String) : Nat :=
  ((lookupAssoc s.models m).getD []).length

/-- Embeds the TableRow namedtuple (lines 13-16). -/
structure TableRow where
  sample : String
  treatment : String
  pore : String
  lab : String
  date : String
  model : String
  alphabet : String
  total_events : Int
  total_kmers : Nat
  trained_kmers : Int
  d0_1 : Nat
  d0_5 : Nat
  d1_0 : Nat
  d2_0 : Nat
  d4_0 : Nat
  deriving DecidableEq, Repr

/-- Embeds diff_cuts = [0.1, 0.5, 1.0, 2.0, 4.0] (line 105). -/
def diff_cuts : List ℚ := [1/10, 1/2, 1, 2, 4]

/-- Embeds the inner threshold loop (lines 132-134): for each cut c,
the count at its index is incremented when diff >= c. -/
def bumpCounts (counts : List Nat) (diff : ℚ) : List Nat :=
  List.zipWith (fun cnt c => if c ≤ diff then cnt + 1 else cnt) counts diff_cuts

/-- Accumulator of the per-k-mer loop (lines 120-134). -/
structure AggAcc where
  total_events : Int
  total_trained : Int
  diff_cut_count : List Nat
  deriving DecidableEq, Repr

/-- Left fold through Except, aborting at the first error: embeds a
Python for-loop whose body can raise. -/
def foldE {σ α : Type} (f : σ → α → Except AggError σ) : σ → List α → Except AggError σ
  | s, [] => .ok s
  | s, a :: as =>
    match f s a with
    | .error e => .error e
    | .ok s1 => foldE f s1 as

/-- Embeds one iteration of the per-k-mer loop (lines 125-134): look up
the reference k-mer (KeyError if absent), take the absolute deviation of
the trained mean from the reference mean, and accumulate events, the
trained flag and the threshold counts. -/
def stepKmer (om : OntModel) (acc : AggAcc) (p : String × TrainedKmerStat) :
    Except AggError AggAcc :=
  match om.lookupKmer p.1 with
  | none => .error .keyError
  | some level_mean =>
    let diff := |p.2.trained_level_mean - level_mean|
    .ok { total_events := acc.total_events + p.2.num_training_events
          total_trained := acc.total_trained + p.2.was_trained
          diff_cut_count := bumpCounts acc.diff_cut_count diff }

/-- Embeds the body of the per-model loop (lines 115-138) for one model
section (short name plus its k-mer statistics in iteration order):
resolve and look up the reference model, check the k-mer count
consistency assert (line 117), run the per-k-mer accumulation, and
build the TableRow (lines 136-138). -/
def aggregateModel (store : RefStore) (summary : TrainingSummary)
    (model_short_name : String) (stats : List (String × TrainedKmerStat)) :
    Except AggError TableRow :=
  match lookupStore store (summary.get_ont_model_name model_short_name) with
  | none => .error .notFound
  | some om =>
    if om.get_num_kmers = stats.length then
      match foldE (stepKmer om) ⟨0, 0, List.replicate diff_cuts.length 0⟩ stats with
      | .error e => .error e
      | .ok acc =>
        .ok { sample := summary.sample
              treatment := summary.treatment
              pore := summary.pore
              lab := summary.lab
              date := summary.date
              model := model_short_name
              alphabet := summary.short_alphabet
              total_events := acc.total_events
              total_kmers := om.get_num_kmers
              trained_kmers := acc.total_trained
              d0_1 := acc.diff_cut_count.getD 0 0
              d0_5 := acc.diff_cut_count.getD 1 0
              d1_0 := acc.diff_cut_count.getD 2 0
              d2_0 := acc.diff_cut_count.getD 3 0
              d4_0 := acc.diff_cut_count.getD 4 0 }
    else .error .consistency

/-- Monadic map through Except: embeds running a loop body for each
model section and collecting the row each iteration appends. -/
def exceptMapM {α β : Type} (f : α → Except AggError β) : List α → Except AggError (List β)
  | [] => .ok []
  | a :: as =>
    match f a with
    | .error e => .error e
    | .ok b =>
      match exceptMapM f as with
      | .error e => .error e
      | .ok bs => .ok (b :: bs)

/-- The rows one training summary contributes (the per-model loop of
lines 113-138), in model iteration order. -/
def aggregateSummary (store : RefStore) (summary : TrainingSummary) :
    Except AggError (List TableRow) :=
  exceptMapM (fun p => aggregateModel store summary p.1 p.2) summary.models

/-- The whole aggregation phase (lines 110-138): table_rows after
processing every summary file in command-line order.  Note it takes
neither the requested treatment nor the requested alphabet. -/
def aggregateAll (store : RefStore) (summaries : List TrainingSummary) :
    Except AggError (List TableRow) :=
  match summaries with
  | [] => .ok []
  | s :: ss =>
    match aggregateSummary store s with
    | .error e => .error e
    | .ok rows =>
      match aggregateAll store ss with
      | .error e => .error e
      | .ok rest => .ok (rows ++ rest)

/-! Rendering (print_table_latex, lines 22-86).  The textual markup is
out of scope per the specification; what is embedded is the data-row
selection: which rows are kept, how they are grouped and how each group
is ordered, together with the assert inside the sort key. -/

/-- Tests whether the second character list starts with the first. -/
def charsStartWith : List Char → List Char → Bool
  | [], _ => true
  | _ :: _, [] => false
  | p :: ps, c :: cs => p = c && charsStartWith ps cs

/-- Tests whether the first character list occurs contiguously inside
the second. -/
def charsContain (pat : List Char) : List Char → Bool
  | [] => charsStartWith pat []
  | c :: cs => charsStartWith pat (c :: cs) || charsContain pat cs

/-- Embeds the Python test s.find(pat) != -1 of line 43: pat occurs as
a substring of s. -/
def strFindHit (s pat : String) : Bool := charsContain pat.toList s.toList

/-- The three model-family markers of line 38, in display order. -/
def model_groups : List String := ["t", "c.p1", "c.p2"]

/-- Embeds the filter of lines 41-45: the rows kept for one model
group block (a row is skipped when its model does not contain the
group marker, or its treatment differs, or its alphabet differs). -/
def bucketRows (table : List TableRow) (model_group treatment alphabet : String) :
    List TableRow :=
  table.filter (fun row =>
    strFindHit row.model model_group && row.treatment == treatment
      && row.alphabet == alphabet)

/-- Characters a through b (exclusive) of a string: Python s[a:b]. -/
def strSlice (s : String) (a b : Nat) : String := ⟨(s.toList.drop a).take (b - a)⟩

/-- The reordered date string date[4:6] + date[2:4] + date[0:2]
computed at line 20 (the slicing, without the assert). -/
def ymdKey (date : String) : String :=
  strSlice date 4 6 ++ strSlice date 2 4 ++ strSlice date 0 2

/-- Embeds yearmonthday (lines 18-20): asserts the date has exactly 6
characters (none = AssertionError), then reorders the three 2-char
components. -/
def yearmonthday (date : String) : Option String :=
  if date.length = 6 then some (ymdKey date) else none

/-- Boolean comparison of two rows by their reordered date keys: the
sort key of line 48. -/
def rowDateLE (a b : TableRow) : Bool := decide (ymdKey a.date ≤ ymdKey b.date)

/-- Embeds the sort of lines 47-48: computing the key asserts every
date has 6 characters; the rows are then sorted (stably) in ascending
key order. -/
def sortRowsByDate (rows : List TableRow) : Except AggError (List TableRow) :=
  if rows.all (fun r => r.date.length == 6) then
    .ok (rows.mergeSort rowDateLE)
  else .error .assertion

/-- The data rows print_table_latex emits, one group block per model
family in the fixed order of line 38, each filtered (lines 41-45) and
sorted (line 48).  Headers, separators and the caption are fixed text
around these blocks and are elided; .error means the AssertionError of
yearmonthday aborted printing. -/
def renderedGroups (table : List TableRow) (treatment alphabet : String) :
    Except AggError (List (List TableRow)) :=
  exceptMapM (fun g => sortRowsByDate (bucketRows table g treatment alphabet)) model_groups

/-! The main loop state (lines 107-138): the model_names dict (write-only,
keyed by short model name, every value 1) and the table_rows list. -/

/-- State the main per-model loop body mutates: the model_names dict
(embedded as its key list in insertion order) and table_rows. -/
structure MainState where
  model_names : List String
  table_rows : List TableRow
  deriving DecidableEq

/-- Embeds the dict write model_names[name] = 1 of line 114: the key is
appended if absent. -/
def registerModelName (names : List String) (n : String) : List String :=
  if names.contains n then names else names ++ [n]

/-- Embeds one iteration of the per-model loop (lines 113-138) acting
on the main state: record the model name, aggregate, append the row. -/
def processModel (store : RefStore) (summary : TrainingSummary) (st : MainState)
    (p : String × List (String × TrainedKmerStat)) : Except AggError MainState :=
  let names := registerModelName st.model_names p.1
  match aggregateModel store summary p.1 p.2 with
  | .error e => .error e
  | .ok row => .ok ⟨names, st.table_rows ++ [row]⟩

/-- Embeds processing one summary file in the main loop, threading the
main state through every model section. -/
def processSummary (store : RefStore) (summary : TrainingSummary) (st : MainState) :
    Except AggError MainState :=
  foldE (processModel store summary) st summary.models

/-! Concrete inputs of the end-to-end example of the specification. -/

/-- The example reference model: 2 k-mers, AA with mean 80.0 and AC
with mean 82.0. -/
def exOntModel : OntModel := ⟨[("AA", 80), ("AC", 82)]⟩

/-- The example reference store, holding the example model under the
identity the example summary resolves to. -/
def exStore : RefStore := [("ont.example", exOntModel)]

/-- The example per-k-mer statistics for model t: AA trained to mean
80.05 over 10 events and AC trained to mean 85.0 over 20 events, both
flagged as trained. -/
def exStats : List (String × TrainedKmerStat) :=
  [("AA", ⟨(80.05 : ℚ), 10, 1⟩), ("AC", ⟨85, 20, 1⟩)]

/-- The example training summary: one model with short name t carrying
the example statistics. -/
def exSummary : TrainingSummary :=
  { sample := "ecoli"
    treatment := "pcr"
    pore := "r9"
    lab := "lab1"
    date := "011216"
    short_alphabet := "cpg"
    models := [("t", exStats)]
    get_ont_model_name := fun _ => "ont.example" }

/-- The row the example aggregation produces. -/
def exRow : TableRow :=
  ⟨"ecoli", "pcr", "r9", "lab1", "011216", "t", "cpg", 30, 2, 2, 1, 1, 1, 1, 0⟩

/-- Statistics whose trained means equal the reference means of the
example model exactly. -/
def exStatsEq : List (String × TrainedKmerStat) :=
  [("AA", ⟨80, 10, 1⟩), ("AC", ⟨82, 20, 1⟩)]

/-- A summary training model t to exactly the reference means. -/
def exSummaryEq : TrainingSummary :=
  { exSummary with models := [("t", exStatsEq)] }

/-- The row the exact-training aggregation produces: all deviation
counts zero. -/
def exRowEq : TableRow :=
  ⟨"ecoli", "pcr", "r9", "lab1", "011216", "t", "cpg", 30, 2, 2, 0, 0, 0, 0, 0⟩

/-- Statistics covering only one k-mer, mismatching the 2-k-mer
example reference model. -/
def exStatsShort : List (String × TrainedKmerStat) := [("AA", ⟨80, 10, 1⟩)]

/-- A summary whose model t has 1 k-mer while its resolved reference
model has 2: the consistency-assert scenario. -/
def exSummaryMismatch : TrainingSummary :=
  { exSummary with models := [("t", exStatsShort)] }

/-- A row whose model string tc.p1 contains both the marker t and the
marker c.p1 as substrings. -/
def cexRow : TableRow :=
  ⟨"s", "x", "p", "l", "010101", "tc.p1", "y", 0, 0, 0, 0, 0, 0, 0, 0⟩

/-- Two rows with distinct well-formed dates, for sortedness witnesses:
date 020116 reorders to key 160102 and date 011216 to key 161201. -/
def exRowDateA : TableRow :=
  ⟨"s1", "x", "p", "l", "020116", "t", "y", 0, 0, 0, 0, 0, 0, 0, 0⟩

/-- Second of the two date-witness rows. -/
def exRowDateB : TableRow :=
  ⟨"s2", "x", "p", "l", "011216", "t", "y", 0, 0, 0, 0, 0, 0, 0, 0⟩

/-! Helper lemmas shared between the claim theorems and witnesses. -/

/-- Computation of the end-to-end example aggregation for model t. -/
theorem aggregateModel_ex_ok : aggregateModel exStore exSummary "t" exStats = .ok exRow := by
  norm_num [aggregateModel, exSummary, exStore, exOntModel, exStats, exRow, lookupStore,
    lookupAssoc, OntModel.get_num_kmers, foldE, stepKmer, OntModel.lookupKmer,
    bumpCounts, diff_cuts, List.zipWith,
    show ("AA" : String) ≠ "AC" from by decide, abs_sub_comm,
    show |(1 : ℚ)/20| = 1/20 from abs_of_nonneg (by norm_num)]

/-- Computation of the example aggregation as a whole summary. -/
theorem aggregateSummary_ex_ok : aggregateSummary exStore exSummary = .ok [exRow] := by
  simp only [aggregateSummary, show exSummary.models = [("t", exStats)] from rfl,
    exceptMapM, aggregateModel_ex_ok]

/-- Claim C1: on the end-to-end example (one reference model with k-mers
AA mean 80.0 and AC mean 82.0; one training summary for model t with AA
trained_mean 80.05, 10 events, trained and AC trained_mean 85.0, 20
events, trained) aggregation produces exactly one row, with deviation
counts 1,1,1,1,0 over the thresholds 0.1, 0.5, 1.0, 2.0, 4.0,
total_events 30, total_kmers 2 and trained_kmers 2. -/
theorem C1_end_to_end_example :
    ∃ row : TableRow, aggregateSummary exStore exSummary = .ok [row] ∧
      row.d0_1 = 1 ∧ row.d0_5 = 1 ∧ row.d1_0 = 1 ∧ row.d2_0 = 1 ∧ row.d4_0 = 0 ∧
      row.total_events = 30 ∧ row.total_kmers = 2 ∧ row.trained_kmers = 2 := by
  exact ⟨exRow, aggregateSummary_ex_ok, rfl, rfl, rfl, rfl, rfl, rfl, rfl, rfl⟩

/-- Successful foldE over the empty list returns the accumulator. -/
theorem foldE_nil {σ α : Type} (f : σ → α → Except AggError σ) (s : σ) :
    foldE f s [] = .ok s := rfl

/-- Unfolding foldE over a cons cell. -/
theorem foldE_cons {σ α : Type} (f : σ → α → Except AggError σ) (s : σ) (a : α) (as : List α) :
    foldE f s (a :: as) =
      match f s a with
      | .error e => .error e
      | .ok s1 => foldE f s1 as := rfl

/-- Any property preserved by every successful step of foldE holds for
the final accumulator of a successful fold. -/
theorem foldE_inv {σ α : Type} (f : σ → α → Except AggError σ) (P : σ → Prop) :
    ∀ (l : List α) (s s' : σ),
      (∀ t a t', a ∈ l → P t → f t a = .ok t' → P t') →
      P s → foldE f s l = .ok s' → P s' := by
  intro l
  induction l with
  | nil =>
    intro s s' _ hP h
    rw [foldE_nil] at h
    cases h
    exact hP
  | cons a as ih =>
    intro s s' hstep hP h
    rw [foldE_cons] at h
    cases hs : f s a with
    | error e => rw [hs] at h; exact absurd h (by simp)
    | ok s1 =>
      rw [hs] at h
      exact ih s1 s' (fun t b t' hb => hstep t b t' (List.mem_cons_of_mem _ hb))
        (hstep s a s1 (List.mem_cons_self _ _) hP hs) h

/-- Inversion of a successful per-k-mer step: the reference k-mer was
found and the accumulator advanced as the loop body dictates. -/
theorem stepKmer_ok_elim {om : OntModel} {t : AggAcc} {p : String × TrainedKmerStat}
    {t' : AggAcc} (h : stepKmer om t p = .ok t') :
    ∃ q, om.lookupKmer p.1 = some q ∧
      t' = ⟨t.total_events + p.2.num_training_events, t.total_trained + p.2.was_trained,
            bumpCounts t.diff_cut_count |p.2.trained_level_mean - q|⟩ := by
  cases hq : om.lookupKmer p.1 with
  | none =>
    simp only [stepKmer, hq] at h
    exact absurd h (by simp)
  | some q =>
    simp only [stepKmer, hq, Except.ok.injEq] at h
    exact ⟨q, rfl, h.symm⟩

/-- Inversion of a successful aggregateModel: the reference model was
found, the consistency check passed, the k-mer fold succeeded, and the
row is built from the final accumulator. -/
theorem aggregateModel_ok_elim {store : RefStore} {summary : TrainingSummary}
    {mname : String} {stats : List (String × TrainedKmerStat)} {row : TableRow}
    (h : aggregateModel store summary mname stats = .ok row) :
    ∃ om acc, lookupStore store (summary.get_ont_model_name mname) = some om ∧
      om.get_num_kmers = stats.length ∧
      foldE (stepKmer om) ⟨0, 0, List.replicate diff_cuts.length 0⟩ stats = .ok acc ∧
      row = { sample := summary.sample, treatment := summary.treatment,
              pore := summary.pore, lab := summary.lab, date := summary.date,
              model := mname, alphabet := summary.short_alphabet,
              total_events := acc.total_events, total_kmers := om.get_num_kmers,
              trained_kmers := acc.total_trained,
              d0_1 := acc.diff_cut_count.getD 0 0, d0_5 := acc.diff_cut_count.getD 1 0,
              d1_0 := acc.diff_cut_count.getD 2 0, d2_0 := acc.diff_cut_count.getD 3 0,
              d4_0 := acc.diff_cut_count.getD 4 0 } := by
  cases hom : lookupStore store (summary.get_ont_model_name mname) with
  | none =>
    simp only [aggregateModel, hom] at h
    exact absurd h (by simp)
  | some om =>
    simp only [aggregateModel, hom] at h
    by_cases hlen : om.get_num_kmers = stats.length
    · rw [if_pos hlen] at h
      cases hacc : foldE (stepKmer om) ⟨0, 0, List.replicate diff_cuts.length 0⟩ stats with
      | error e => rw [hacc] at h; exact absurd h (by simp)
      | ok acc =>
        rw [hacc] at h
        refine ⟨om, acc, rfl, hlen, hacc, ?_⟩
        simpa using h.symm
    · rw [if_neg hlen] at h
      exact absurd h (by simp)

/-- Unfolding bumpCounts on a 5-element count list against the five
concrete thresholds. -/
theorem bumpCounts_five (a b c d e : Nat) (q : ℚ) :
    bumpCounts [a, b, c, d, e] q =
      [if 1/10 ≤ q then a + 1 else a, if 1/2 ≤ q then b + 1 else b,
       if 1 ≤ q then c + 1 else c, if 2 ≤ q then d + 1 else d,
       if 4 ≤ q then e + 1 else e] := by
  simp [bumpCounts, diff_cuts]

/-- Bumping preserves the adjacent-monotone shape of the counts,
because the thresholds ascend: a deviation meeting a later threshold
also meets every earlier one. -/
theorem bumpCounts_mono_five {a b c d e : Nat} (q : ℚ)
    (h1 : b ≤ a) (h2 : c ≤ b) (h3 : d ≤ c) (h4 : e ≤ d) :
    ∃ a2 b2 c2 d2 e2 : Nat, bumpCounts [a, b, c, d, e] q = [a2, b2, c2, d2, e2] ∧
      b2 ≤ a2 ∧ c2 ≤ b2 ∧ d2 ≤ c2 ∧ e2 ≤ d2 := by
  rw [bumpCounts_five]
  refine ⟨_, _, _, _, _, rfl, ?_, ?_, ?_, ?_⟩ <;>
    split_ifs <;> first | omega | (exfalso; linarith)

/-- Bumping an all-zero count list with a zero deviation leaves it all
zero: no threshold is reached. -/
theorem bumpCounts_zero : bumpCounts [0, 0, 0, 0, 0] 0 = [0, 0, 0, 0, 0] := by
  rw [bumpCounts_five]
  norm_num

/-- Claim C2: for every aggregated row, the five deviation counts are
non-increasing in threshold index (each k-mer whose absolute deviation
meets a larger threshold also meets every smaller one: the buckets are
cumulative, not exclusive). -/
theorem C2_deviation_counts_monotone (store : RefStore) (summary : TrainingSummary)
    (mname : String) (stats : List (String × TrainedKmerStat)) (row : TableRow)
    (hok : aggregateModel store summary mname stats = .ok row) :
    row.d0_5 ≤ row.d0_1 ∧ row.d1_0 ≤ row.d0_5 ∧ row.d2_0 ≤ row.d1_0 ∧
      row.d4_0 ≤ row.d2_0 := by
  obtain ⟨om, acc, hom, hlen, hacc, hrow⟩ := aggregateModel_ok_elim hok
  have hinv : ∃ a b c d e : Nat, acc.diff_cut_count = [a, b, c, d, e] ∧
      b ≤ a ∧ c ≤ b ∧ d ≤ c ∧ e ≤ d := by
    refine foldE_inv (stepKmer om)
      (fun t => ∃ a b c d e : Nat, t.diff_cut_count = [a, b, c, d, e] ∧
        b ≤ a ∧ c ≤ b ∧ d ≤ c ∧ e ≤ d) stats _ acc ?_ ?_ hacc
    · intro t p t' _ hP hstep
      obtain ⟨q, _, rfl⟩ := stepKmer_ok_elim hstep
      obtain ⟨a, b, c, d, e, hl, h1, h2, h3, h4⟩ := hP
      simpa [hl] using bumpCounts_mono_five |p.2.trained_level_mean - q| h1 h2 h3 h4
    · exact ⟨0, 0, 0, 0, 0, rfl, Nat.le_refl 0, Nat.le_refl 0, Nat.le_refl 0, Nat.le_refl 0⟩
  obtain ⟨a, b, c, d, e, hl, h1, h2, h3, h4⟩ := hinv
  subst hrow
  simp only [hl, List.getD_cons_zero, List.getD_cons_succ]
  exact ⟨h1, h2, h3, h4⟩

/-- Witness for C2 at the end-to-end example row. -/
theorem C2_witness :
    exRow.d0_5 ≤ exRow.d0_1 ∧ exRow.d1_0 ≤ exRow.d0_5 ∧ exRow.d2_0 ≤ exRow.d1_0 ∧
      exRow.d4_0 ≤ exRow.d2_0 :=
  C2_deviation_counts_monotone exStore exSummary "t" exStats exRow aggregateModel_ex_ok

/-- Bounds accumulated by the per-k-mer fold: the trained tally grows
by at most one per k-mer, and the event total never decreases when
every event count is non-negative. -/
theorem foldE_bounds (om : OntModel) :
    ∀ (stats : List (String × TrainedKmerStat)) (acc acc' : AggAcc),
      (∀ p ∈ stats, p.2.was_trained ≤ 1) →
      (∀ p ∈ stats, 0 ≤ p.2.num_training_events) →
      foldE (stepKmer om) acc stats = .ok acc' →
      acc'.total_trained ≤ acc.total_trained + stats.length ∧
        acc.total_events ≤ acc'.total_events := by
  intro stats
  induction stats with
  | nil =>
    intro acc acc' _ _ h
    rw [foldE_nil] at h
    cases h
    simp
  | cons p ps ih =>
    intro acc acc' hw he h
    rw [foldE_cons] at h
    cases hs : stepKmer om acc p with
    | error e => rw [hs] at h; exact absurd h (by simp)
    | ok acc1 =>
      rw [hs] at h
      obtain ⟨q, _, rfl⟩ := stepKmer_ok_elim hs
      obtain ⟨ih1, ih2⟩ := ih _ acc'
        (fun x hx => hw x (List.mem_cons_of_mem _ hx))
        (fun x hx => he x (List.mem_cons_of_mem _ hx)) h
      have hw1 := hw p (List.mem_cons_self _ _)
      have he1 := he p (List.mem_cons_self _ _)
      dsimp only at ih1 ih2
      constructor
      · simp only [List.length_cons]
        push_cast at ih1 ⊢
        omega
      · omega

/-- Claim C3: for every aggregated row, trained_kmers is at most
total_kmers and total_events is non-negative, provided each was_trained
flag is 0 or 1 and each num_training_events is non-negative (the
k-mer-count agreement the claim also assumes is enforced by the
consistency assert on the success path). -/
theorem C3_trained_le_total (store : RefStore) (summary : TrainingSummary)
    (mname : String) (stats : List (String × TrainedKmerStat)) (row : TableRow)
    (hw : ∀ p ∈ stats, p.2.was_trained = 0 ∨ p.2.was_trained = 1)
    (he : ∀ p ∈ stats, 0 ≤ p.2.num_training_events)
    (hok : aggregateModel store summary mname stats = .ok row) :
    row.trained_kmers ≤ (row.total_kmers : Int) ∧ 0 ≤ row.total_events := by
  obtain ⟨om, acc, hom, hlen, hacc, hrow⟩ := aggregateModel_ok_elim hok
  obtain ⟨h1, h2⟩ := foldE_bounds om stats _ acc
    (fun p hp => by rcases hw p hp with h | h <;> omega) he hacc
  subst hrow
  dsimp only
  rw [hlen]
  dsimp only at h1 h2
  constructor <;> omega

/-- Witness for C3 at the end-to-end example row. -/
theorem C3_witness :
    exRow.trained_kmers ≤ (exRow.total_kmers : Int) ∧ 0 ≤ exRow.total_events :=
  C3_trained_le_total exStore exSummary "t" exStats exRow
    (by norm_num [exStats]) (by norm_num [exStats]) aggregateModel_ex_ok

/-- Claim C9: when the trained level means equal the reference level
means for every k-mer of a model, the aggregated row for that model has
all five deviation counts equal to zero. -/
theorem C9_exact_training_zero_counts (store : RefStore) (summary : TrainingSummary)
    (mname : String) (stats : List (String × TrainedKmerStat)) (row : TableRow)
    (om : OntModel)
    (hom : lookupStore store (summary.get_ont_model_name mname) = some om)
    (hmeans : ∀ p ∈ stats, ∀ q, om.lookupKmer p.1 = some q → p.2.trained_level_mean = q)
    (hok : aggregateModel store summary mname stats = .ok row) :
    row.d0_1 = 0 ∧ row.d0_5 = 0 ∧ row.d1_0 = 0 ∧ row.d2_0 = 0 ∧ row.d4_0 = 0 := by
  obtain ⟨om2, acc, hom2, hlen, hacc, hrow⟩ := aggregateModel_ok_elim hok
  rw [hom] at hom2
  obtain rfl : om = om2 := Option.some.inj hom2
  have hinv : acc.diff_cut_count = [0, 0, 0, 0, 0] := by
    refine foldE_inv (stepKmer om) (fun t => t.diff_cut_count = [0, 0, 0, 0, 0])
      stats _ acc ?_ rfl hacc
    intro t p t' hp hP hstep
    obtain ⟨q, hq, rfl⟩ := stepKmer_ok_elim hstep
    have hm := hmeans p hp q hq
    simp [hP, hm, sub_self, abs_zero, bumpCounts_zero]
  subst hrow
  simp [hinv]

/-- Computation of the exact-training aggregation for model t. -/
theorem aggregateModel_exEq_ok :
    aggregateModel exStore exSummaryEq "t" exStatsEq = .ok exRowEq := by
  norm_num [aggregateModel, exSummaryEq, exSummary, exStore, exOntModel, exStatsEq, exRowEq,
    lookupStore, lookupAssoc, OntModel.get_num_kmers, foldE, stepKmer, OntModel.lookupKmer,
    bumpCounts, diff_cuts, List.zipWith, sub_self, abs_zero,
    show ("AA" : String) ≠ "AC" from by decide]

/-- Witness for C9 at the exact-training example. -/
theorem C9_witness :
    exRowEq.d0_1 = 0 ∧ exRowEq.d0_5 = 0 ∧ exRowEq.d1_0 = 0 ∧ exRowEq.d2_0 = 0 ∧
      exRowEq.d4_0 = 0 :=
  C9_exact_training_zero_counts exStore exSummaryEq "t" exStatsEq exRowEq exOntModel
    (by simp [exSummaryEq, exSummary, exStore, lookupStore, lookupAssoc])
    (by norm_num [exStatsEq, exOntModel, OntModel.lookupKmer, lookupAssoc,
      show ("AA" : String) ≠ "AC" from by decide])
    aggregateModel_exEq_ok

/-- Successful exceptMapM implies every element mapped successfully. -/
theorem exceptMapM_ok_forall {α β : Type} (f : α → Except AggError β) :
    ∀ (l : List α) (bs : List β), exceptMapM f l = .ok bs → ∀ a ∈ l, ∃ b, f a = .ok b := by
  intro l
  induction l with
  | nil =>
    intro bs _ a ha
    cases ha
  | cons x xs ih =>
    intro bs h a ha
    simp only [exceptMapM] at h
    cases hx : f x with
    | error e => rw [hx] at h; simp at h
    | ok b =>
      rw [hx] at h
      cases hxs : exceptMapM f xs with
      | error e => rw [hxs] at h; simp at h
      | ok bs2 =>
        rcases List.mem_cons.mp ha with rfl | ha2
        · exact ⟨b, hx⟩
        · exact ih bs2 hxs a ha2

/-- Claim C4: when the resolved reference model's k-mer count differs
from the summary's k-mer count for a model, aggregation of that model
fails with the consistency error (before any per-k-mer accumulation:
the error is produced for arbitrary statistics contents), and the
summary produces no row list at all. -/
theorem C4_consistency_mismatch_aborts (store : RefStore) (summary : TrainingSummary)
    (mname : String) (stats : List (String × TrainedKmerStat)) (om : OntModel)
    (hom : lookupStore store (summary.get_ont_model_name mname) = some om)
    (hne : om.get_num_kmers ≠ stats.length)
    (hmem : (mname, stats) ∈ summary.models) :
    aggregateModel store summary mname stats = .error .consistency ∧
      ∀ rows, aggregateSummary store summary ≠ .ok rows := by
  have h1 : aggregateModel store summary mname stats = .error .consistency := by
    simp only [aggregateModel, hom]
    rw [if_neg hne]
  refine ⟨h1, fun rows hok => ?_⟩
  simp only [aggregateSummary] at hok
  obtain ⟨row, hrow⟩ := exceptMapM_ok_forall _ summary.models rows hok (mname, stats) hmem
  simp only at hrow
  rw [h1] at hrow
  exact absurd hrow (by simp)

/-- Witness for C4 at the mismatching concrete summary (1 trained
k-mer against a 2-k-mer reference model). -/
theorem C4_witness :
    aggregateModel exStore exSummaryMismatch "t" exStatsShort = .error .consistency ∧
      ∀ rows, aggregateSummary exStore exSummaryMismatch ≠ .ok rows :=
  C4_consistency_mismatch_aborts exStore exSummaryMismatch "t" exStatsShort exOntModel
    (by simp [exSummaryMismatch, exSummary, exStore, lookupStore, lookupAssoc])
    (by decide)
    (by simp [exSummaryMismatch, exSummary])

/-- Successful exceptMapM relates input and output pointwise. -/
theorem exceptMapM_ok_forall₂ {α β : Type} (f : α → Except AggError β) :
    ∀ (l : List α) (bs : List β), exceptMapM f l = .ok bs →
      List.Forall₂ (fun a b => f a = .ok b) l bs := by
  intro l
  induction l with
  | nil =>
    intro bs h
    simp only [exceptMapM, Except.ok.injEq] at h
    subst h
    exact .nil
  | cons x xs ih =>
    intro bs h
    simp only [exceptMapM] at h
    cases hx : f x with
    | error e => rw [hx] at h; simp at h
    | ok b =>
      rw [hx] at h
      cases hxs : exceptMapM f xs with
      | error e => rw [hxs] at h; simp at h
      | ok bs2 =>
        rw [hxs] at h
        obtain rfl : bs = b :: bs2 := by simpa using h.symm
        exact .cons hx (ih bs2 hxs)

/-- Pointwise-related lists have equal maps under compatible
projections. -/
theorem forall₂_map_eq {α β γ : Type} (R : α → β → Prop) (g : β → γ) (g2 : α → γ)
    (hg : ∀ a b, R a b → g b = g2 a) :
    ∀ {l : List α} {bs : List β}, List.Forall₂ R l bs → bs.map g = l.map g2 := by
  intro l bs h
  induction h with
  | nil => rfl
  | cons hR _ ih => simp [hg _ _ hR, ih]

/-- The rows a summary contributes carry its metadata and its model
short names, one row per model section, in iteration order. -/
theorem aggregateSummary_shape (store : RefStore) (summary : TrainingSummary)
    (rows : List TableRow) (h : aggregateSummary store summary = .ok rows) :
    rows.map (fun r => (r.sample, r.treatment, r.alphabet, r.model)) =
      summary.models.map
        (fun p => (summary.sample, summary.treatment, summary.short_alphabet, p.1)) ∧
      rows.length = summary.models.length := by
  simp only [aggregateSummary] at h
  have h2 := exceptMapM_ok_forall₂ _ summary.models rows h
  constructor
  · refine forall₂_map_eq _ _ _ ?_ h2
    intro p row hR
    simp only at hR
    obtain ⟨om, acc, _, _, _, hrow⟩ := aggregateModel_ok_elim hR
    subst hrow
    rfl
  · exact h2.length_eq.symm

/-- Claim C10: aggregation emits exactly one row per (summary file,
model) pair, in input order, regardless of the requested treatment and
alphabet (aggregateAll takes neither): the row list's length is the
total number of model sections, and its rows carry each summary's own
sample, treatment and alphabet and each model's short name, in
concatenated input order. -/
theorem C10_one_row_per_model (store : RefStore) (summaries : List TrainingSummary)
    (rows : List TableRow) (h : aggregateAll store summaries = .ok rows) :
    rows.length = (summaries.map (fun s => s.models.length)).sum ∧
      rows.map (fun r => (r.sample, r.treatment, r.alphabet, r.model)) =
        (summaries.map (fun s =>
          s.models.map (fun p => (s.sample, s.treatment, s.short_alphabet, p.1)))).flatten := by
  induction summaries generalizing rows with
  | nil =>
    simp only [aggregateAll, Except.ok.injEq] at h
    subst h
    simp
  | cons s ss ih =>
    simp only [aggregateAll] at h
    cases h1 : aggregateSummary store s with
    | error e => rw [h1] at h; simp at h
    | ok rs =>
      rw [h1] at h
      cases h2 : aggregateAll store ss with
      | error e => rw [h2] at h; simp at h
      | ok rest =>
        rw [h2] at h
        obtain rfl : rows = rs ++ rest := by simpa using h.symm
        obtain ⟨ihm, ihl⟩ := ih rest h2
        obtain ⟨hmap, hlen⟩ := aggregateSummary_shape store s rs h1
        simp [hmap, ihm, ihl, hlen]

/-- Witness for C10 at the end-to-end example input. -/
theorem C10_witness :
    ([exRow] : List TableRow).length =
        (([exSummary] : List TrainingSummary).map (fun s => s.models.length)).sum ∧
      ([exRow] : List TableRow).map (fun r => (r.sample, r.treatment, r.alphabet, r.model)) =
        (([exSummary] : List TrainingSummary).map (fun s =>
          s.models.map (fun p => (s.sample, s.treatment, s.short_alphabet, p.1)))).flatten :=
  C10_one_row_per_model exStore [exSummary] [exRow]
    (by simp [aggregateAll, aggregateSummary_ex_ok])

/-- Membership in a model-group block: a row is kept exactly when its
model contains the group marker as a substring (the find test of line
43) and its treatment and alphabet equal the requested ones. -/
theorem bucketRows_mem (table : List TableRow) (g tr al : String) (row : TableRow) :
    row ∈ bucketRows table g tr al ↔
      row ∈ table ∧ strFindHit row.model g = true ∧ row.treatment = tr ∧
        row.alphabet = al := by
  simp [bucketRows, List.mem_filter, and_assoc]

/-- Claim C5 counterexample: the filter matches the model field by
substring containment (find, line 43), not by equality against exactly
one marker, so a row whose model string tc.p1 contains both the marker
t and the marker c.p1 is kept in two family buckets at once: the kept
rows are not partitioned into the three buckets. -/
theorem C5_counterexample :
    bucketRows [cexRow] "t" "x" "y" = [cexRow] ∧
      bucketRows [cexRow] "c.p1" "x" "y" = [cexRow] := by
  constructor <;> decide

/-- Claim C5 amended: rendering keeps exactly the rows whose treatment
and alphabet equal the requested values and whose model contains one of
the three family markers t, c.p1, c.p2 as a substring; a kept row
appears in every bucket whose marker its model contains - at least one,
possibly more - the buckets being emitted in the fixed display order
given by model_groups. -/
theorem C5_filter_and_grouping (table : List TableRow) (tr al : String) (row : TableRow) :
    (row ∈ bucketRows table "t" tr al ↔
      row ∈ table ∧ strFindHit row.model "t" = true ∧ row.treatment = tr ∧
        row.alphabet = al) ∧
    (row ∈ bucketRows table "c.p1" tr al ↔
      row ∈ table ∧ strFindHit row.model "c.p1" = true ∧ row.treatment = tr ∧
        row.alphabet = al) ∧
    (row ∈ bucketRows table "c.p2" tr al ↔
      row ∈ table ∧ strFindHit row.model "c.p2" = true ∧ row.treatment = tr ∧
        row.alphabet = al) ∧
    ((∃ g ∈ model_groups, row ∈ bucketRows table g tr al) ↔
      (row ∈ table ∧ row.treatment = tr ∧ row.alphabet = al ∧
        ∃ g ∈ model_groups, strFindHit row.model g = true)) := by
  refine ⟨bucketRows_mem .., bucketRows_mem .., bucketRows_mem .., ?_⟩
  simp only [model_groups, List.mem_cons, List.not_mem_nil, or_false, bucketRows_mem]
  constructor
  · rintro ⟨g, (rfl | rfl | rfl), hmem, hhit, htr, hal⟩ <;>
      exact ⟨hmem, htr, hal, _, by simp, hhit⟩
  · rintro ⟨hmem, htr, hal, g, (rfl | rfl | rfl), hhit⟩ <;>
      exact ⟨_, by simp, hmem, hhit, htr, hal⟩

/-- Transitivity of the date-key comparison used by the sort. -/
theorem rowDateLE_trans (a b c : TableRow) (hab : rowDateLE a b = true)
    (hbc : rowDateLE b c = true) : rowDateLE a c = true := by
  simp only [rowDateLE, decide_eq_true_eq] at hab hbc ⊢
  exact le_trans hab hbc

/-- Totality of the date-key comparison used by the sort. -/
theorem rowDateLE_total (a b : TableRow) : (rowDateLE a b || rowDateLE b a) = true := by
  simp only [rowDateLE, Bool.or_eq_true, decide_eq_true_eq]
  exact le_total _ _

/-- Claim C6: when every date in the bucket has 6 characters, the sort
of lines 47-48 succeeds and returns a permutation of the bucket in
ascending order of the reordered key date[4:6] ++ date[2:4] ++
date[0:2]; the key computation yields exactly that rearrangement on
6-character dates, and fails its assert on any date string whose length
is not 6. -/
theorem C6_sort_by_reordered_date (rows : List TableRow)
    (h6 : ∀ r ∈ rows, r.date.length = 6) :
    (∃ l, sortRowsByDate rows = .ok l ∧ l.Perm rows ∧
      l.Pairwise (fun a b => ymdKey a.date ≤ ymdKey b.date)) ∧
    (∀ d : String, d.length = 6 → yearmonthday d = some (ymdKey d)) ∧
    (∀ d : String, d.length ≠ 6 → yearmonthday d = none) := by
  refine ⟨?_, fun d hd => by simp [yearmonthday, hd],
    fun d hd => by simp [yearmonthday, hd]⟩
  have hall : rows.all (fun r => r.date.length == 6) = true := by
    simp only [List.all_eq_true, beq_iff_eq]
    exact h6
  refine ⟨rows.mergeSort rowDateLE, by simp [sortRowsByDate, hall],
    List.mergeSort_perm rows rowDateLE, ?_⟩
  have hs := List.sorted_mergeSort rowDateLE_trans rowDateLE_total rows
  exact hs.imp (fun hab => by simpa [rowDateLE] using hab)

/-- Witness for C6 at two concrete rows whose dates reorder to the
keys 160102 and 161201. -/
theorem C6_witness :
    (∀ r ∈ [exRowDateA, exRowDateB], r.date.length = 6) ∧
      ((∃ l, sortRowsByDate [exRowDateA, exRowDateB] = .ok l ∧
          l.Perm [exRowDateA, exRowDateB] ∧
          l.Pairwise (fun a b => ymdKey a.date ≤ ymdKey b.date)) ∧
        (∀ d : String, d.length = 6 → yearmonthday d = some (ymdKey d)) ∧
        (∀ d : String, d.length ≠ 6 → yearmonthday d = none)) :=
  ⟨by decide, C6_sort_by_reordered_date [exRowDateA, exRowDateB] (by decide)⟩

/-- Claim C7: when no row matches the requested treatment and alphabet,
rendering succeeds and emits three empty group blocks - zero data rows,
with only the fixed headers, separators and caption - rather than an
error. -/
theorem C7_empty_filter_ok (table : List TableRow) (tr al : String)
    (h : ∀ row ∈ table, ¬(row.treatment = tr ∧ row.alphabet = al)) :
    renderedGroups table tr al = .ok [[], [], []] := by
  have hb : ∀ g, bucketRows table g tr al = [] := by
    intro g
    rw [bucketRows, List.filter_eq_nil_iff]
    intro row hrow
    have hrow2 := h row hrow
    simp only [Bool.and_eq_true, beq_iff_eq, not_and]
    tauto
  simp [renderedGroups, model_groups, exceptMapM, hb, sortRowsByDate]

/-- Witness for C7: the example row is pcr-treated, so requesting a
different treatment yields the empty-bodied table. -/
theorem C7_witness : renderedGroups [exRow] "mcviti" "cpg" = .ok [[], [], []] :=
  C7_empty_filter_ok [exRow] "mcviti" "cpg" (by decide)

/-- Frame lemma for the main loop over one summary's model sections:
on success, table_rows grows exactly by the rows of the pure
aggregation of the (store, summary) pair - whatever the prior state -
and the model_names registry grows exactly by registering each model
short name in order. -/
theorem processModels_frame (store : RefStore) (summary : TrainingSummary) :
    ∀ (ms : List (String × List (String × TrainedKmerStat))) (st st' : MainState),
      foldE (processModel store summary) st ms = .ok st' →
      ∃ rows, exceptMapM (fun p => aggregateModel store summary p.1 p.2) ms = .ok rows ∧
        st'.table_rows = st.table_rows ++ rows ∧
        st'.model_names = (ms.map Prod.fst).foldl registerModelName st.model_names := by
  intro ms
  induction ms with
  | nil =>
    intro st st' h
    rw [foldE_nil] at h
    cases h
    exact ⟨[], rfl, by simp, rfl⟩
  | cons p ps ih =>
    intro st st' h
    rw [foldE_cons] at h
    cases hp : processModel store summary st p with
    | error e => rw [hp] at h; simp at h
    | ok st1 =>
      rw [hp] at h
      obtain ⟨rows, hmap, htab, hnames⟩ := ih st1 st' h
      cases hagg : aggregateModel store summary p.1 p.2 with
      | error e =>
        simp only [processModel, hagg] at hp
        exact absurd hp (by simp)
      | ok row =>
        simp only [processModel, hagg, Except.ok.injEq] at hp
        refine ⟨row :: rows, ?_, ?_, ?_⟩
        · simp only [exceptMapM, hagg, hmap]
        · rw [htab, ← hp]
          simp
        · rw [hnames, ← hp]
          simp

/-- Computation of the main loop on the example summary from the empty
state: it both appends the row and registers the model name. -/
theorem processSummary_ex :
    processSummary exStore exSummary ⟨[], []⟩ = .ok ⟨["t"], [exRow]⟩ := by
  show foldE _ _ exSummary.models = _
  rw [show exSummary.models = [("t", exStats)] from rfl, foldE_cons]
  simp [processModel, aggregateModel_ex_ok, registerModelName, foldE_nil]

/-- Claim C8 counterexample: processing the example summary from the
empty main state mutates the model_names registry (it becomes the
one-element registry t) in addition to appending to the row sequence,
so aggregation in the main loop is not free of side effects beyond the
output row sequence. -/
theorem C8_counterexample :
    processSummary exStore exSummary ⟨[], []⟩ = .ok ⟨["t"], [exRow]⟩ ∧
      (MainState.mk ["t"] [exRow]).model_names ≠ (MainState.mk [] []).model_names :=
  ⟨processSummary_ex, by simp⟩

/-- Claim C8 amended: aggregation of a summary in the main loop is a
pure function of its two inputs with exactly two effects on the loop
state: on success the row sequence grows by the rows of
aggregateSummary (independent of the prior state), and the write-only
model_names registry grows by registering the summary's model short
names; apart from these two appends (and the fatal abort) no state
changes. -/
theorem C8_frame_and_purity (store : RefStore) (summary : TrainingSummary)
    (st st' : MainState) (h : processSummary store summary st = .ok st') :
    ∃ rows, aggregateSummary store summary = .ok rows ∧
      st'.table_rows = st.table_rows ++ rows ∧
      st'.model_names = (summary.models.map Prod.fst).foldl registerModelName st.model_names :=
  processModels_frame store summary summary.models st st' h

/-- Witness for C8 at the example summary and the empty initial state. -/
theorem C8_witness :
    ∃ rows, aggregateSummary exStore exSummary = .ok rows ∧
      (MainState.mk ["t"] [exRow]).table_rows = (MainState.mk [] []).table_rows ++ rows ∧
      (MainState.mk ["t"] [exRow]).model_names =
        (exSummary.models.map Prod.fst).foldl registerModelName
          (MainState.mk [] []).model_names :=
  C8_frame_and_purity exStore exSummary ⟨[], []⟩ ⟨["t"], [exRow]⟩ processSummary_ex

end MethTable
